import Mathlib

/-!
Shallow embedding of `src/advanced-vector/vector.h`: a generic dynamic array
`Vector<T>` built on a raw storage arena `RawMemory<T>`.

Modelling conventions:
* A `Vector<T>` state is `Vec α`: `elems` is the live prefix
  `data_[0, size_)` as a list of element values, `cap` is `data_.Capacity()`.
  `size_` is recovered as `elems.length`.
* Iterators are offsets from `begin()`: an operation returning an iterator
  returns a `Nat` offset; `end()` is the offset `size_`.
* Compile-time trait dispatch (`std::is_nothrow_move_constructible_v<T>`,
  `std::is_copy_constructible_v<T>`, `std::is_nothrow_move_assignable_v<T>`)
  becomes a `Bool` parameter wherever the source branches on a trait and the
  two branches differ at the value level.  Where the `if constexpr` branches
  move or copy the same element sequence (`Reserve`, `PushBack`,
  `EmplaceBack`, the growth branch of `Emplace`), moving and copying produce
  the same sequence of element values, so the pure model takes no flag.
* Operations on two vectors (`Swap`, move construction, assignment) return
  the pair (state of `*this` after, state of the other after).  The
  `this != &rhs` self-assignment guards are modelled by treating the two
  arguments as distinct objects, which is what every claim quantifies over.
* A throwing copy constructor for `T` is modelled in a second, fallible
  layer: `cp : α → Option α` (`none` = the copy constructor throws), with
  the growth operations returning `Except (Vec α) (Vec α)` where `error w`
  means the exception propagated and `w` is the vector's state observed by
  the caller afterwards.
-/

set_option autoImplicit false

namespace AdvVec

variable {α : Type}

/-- State of a `Vector<T>` (vector.h:96-387): live prefix and arena capacity. -/
structure Vec (α : Type) where
  elems : List α
  cap : Nat
deriving Repr, DecidableEq

/-- The class invariant `0 <= size_ <= data_.Capacity()` (spec §3). -/
def Inv (v : Vec α) : Prop := v.elems.length ≤ v.cap

/-- `Vector()` (vector.h:179): default constructed, empty, zero capacity. -/
def MkEmpty : Vec α := ⟨[], 0⟩

/-- `Vector(size_t size)` (vector.h:240-244): allocates capacity `size` and
value-constructs `size` elements; `d` is the default value of `T`. -/
def MkSized (d : α) (n : Nat) : Vec α := ⟨List.replicate n d, n⟩

/-- `Vector(const Vector&)` (vector.h:248-252): allocates exactly
`other.size_` and copy-constructs the elements. -/
def CopyCtor (other : Vec α) : Vec α := ⟨other.elems, other.elems.length⟩

/-- `Vector(Vector&& other)` (vector.h:181-183): `data_(std::move(other.data_))`
steals the arena via `RawMemory`'s move constructor (vector.h:30-32), which
swaps with a fresh null/0 arena, so `other`'s arena becomes null with
capacity 0; then `std::swap(this->size_, other.size_)` exchanges the new
object's 0 with `other.size_`.  Returns (constructed vector, residual state
of `other`). -/
def MoveCtor (other : Vec α) : Vec α × Vec α := (⟨other.elems, other.cap⟩, ⟨[], 0⟩)

/-- `Vector::Swap` (vector.h:231-234): swaps arenas and sizes.  Returns
(state of `*this` after, state of `other` after). -/
def Swap (a b : Vec α) : Vec α × Vec α := (⟨b.elems, b.cap⟩, ⟨a.elems, a.cap⟩)

/-- `operator=(const Vector& rhs)` (vector.h:185-217), for `this != &rhs`:
* `rhs.size_ > data_.Capacity()`: copy-and-swap — `Vector rhs_copy(rhs)`
  has capacity `rhs.size_`, then `Swap(rhs_copy)`;
* `size_ > rhs.size_`: copy-assign `rhs` over the prefix `[0, rhs.size_)`
  of the buffer, destroy the excess suffix, set `size_ = rhs.size_`;
* otherwise: copy-assign `rhs` over `[0, size_)` and
  `uninitialized_copy_n` the remaining `rhs.size_ - size_` elements into
  the raw tail, set `size_ = rhs.size_`. -/
def CopyAssign (dst rhs : Vec α) : Vec α :=
  if rhs.elems.length > dst.cap then
    ⟨(CopyCtor rhs).elems, (CopyCtor rhs).cap⟩
  else if dst.elems.length > rhs.elems.length then
    ⟨(rhs.elems ++ dst.elems.drop rhs.elems.length).take rhs.elems.length, dst.cap⟩
  else
    ⟨rhs.elems.take dst.elems.length ++ rhs.elems.drop dst.elems.length, dst.cap⟩

/-- `operator=(Vector&& rhs)` (vector.h:219-229), for `this != &rhs`:
only when `rhs.size_ > data_.Capacity()` does it move-construct
`rhs_copy` from `rhs` (leaving `rhs` empty) and swap; otherwise the body
does nothing and both objects are unchanged.  Returns
(state of `*this` after, state of `rhs` after).  Declared `noexcept`:
the model is a total function. -/
def MoveAssign (dst rhs : Vec α) : Vec α × Vec α :=
  if rhs.elems.length > dst.cap then
    ((MoveCtor rhs).1, (MoveCtor rhs).2)
  else
    (dst, rhs)

/-- `Vector::Reserve` (vector.h:284-296): no-op when
`new_capacity <= data_.Capacity()`; otherwise allocates `new_capacity`,
migrates the `size_` live elements (by move or copy — same value sequence),
destroys the old elements and swaps in the new arena.  `size_` is not
touched. -/
def Reserve (v : Vec α) (n : Nat) : Vec α :=
  if n ≤ v.cap then v else ⟨v.elems, n⟩

/-- `Vector::Resize` (vector.h:298-309): shrink destroys the suffix
`[new_size, size_)`; growth reserves then value-constructs the new suffix
(`d` is the default value of `T`).  The source's two sequential `if`s are
exclusive (after the first fires, `size_ = new_size`), hence the nested
form. -/
def Resize (d : α) (v : Vec α) (n : Nat) : Vec α :=
  if n < v.elems.length then
    ⟨v.elems.take n, v.cap⟩
  else if n > v.elems.length then
    ⟨(Reserve v n).elems ++ List.replicate (n - v.elems.length) d, (Reserve v n).cap⟩
  else
    v

/-- `Vector::PushBack` (vector.h:316-350; the `const T&` and `T&&` overloads
coincide at the value level).  At capacity: allocate
`size_ == 0 ? 1 : size_ * 2`, construct the new element at slot `size_`,
migrate the old elements to the front (move or copy — same values), destroy
the old ones, swap arenas, `size_ += 1`.  Otherwise construct at `data_ + size_`. -/
def PushBack (v : Vec α) (x : α) : Vec α :=
  if v.elems.length = v.cap then
    ⟨v.elems ++ [x], if v.elems.length = 0 then 1 else v.elems.length * 2⟩
  else
    ⟨v.elems ++ [x], v.cap⟩

/-- `Vector::EmplaceBack` (vector.h:351-370): same control flow as
`PushBack` with the element constructed in place from `args`; here `x` is
the value that construction produces.  The returned `T&` refers to
`data_[size_ - 1]`, i.e. the appended `x`. -/
def EmplaceBack (v : Vec α) (x : α) : Vec α :=
  if v.elems.length = v.cap then
    ⟨v.elems ++ [x], if v.elems.length = 0 then 1 else v.elems.length * 2⟩
  else
    ⟨v.elems ++ [x], v.cap⟩

/-- `Vector::PopBack` (vector.h:376-381): destroys the last element when
non-empty, else no-op.  `noexcept`: total. -/
def PopBack (v : Vec α) : Vec α :=
  if v.elems.length > 0 then ⟨v.elems.dropLast, v.cap⟩ else v

/-- `Vector::Erase` (vector.h:155-169).  `nta` is
`std::is_nothrow_move_assignable_v<T>`; `idx` is `pos - cbegin()`.
When non-empty: only if `nta` does `std::move(begin()+idx+1, end(), begin()+idx)`
left-shift the suffix (after which slot `size_-1` still holds its old,
moved-from value — values coincide in the model); then the last slot is
destroyed and `size_ -= 1`.  Returns `begin() + idx` when the new size is
positive, else `end()` (offset = new size).  On an empty vector it returns
`end()` immediately. -/
def Erase (nta : Bool) (v : Vec α) (idx : Nat) : Vec α × Nat :=
  if 0 < v.elems.length then
    let buf := if nta then
        v.elems.take idx ++ v.elems.drop (idx + 1) ++ v.elems.reverse.take 1
      else
        v.elems
    let after : Vec α := ⟨buf.dropLast, v.cap⟩
    (after, if 0 < after.elems.length then idx else after.elems.length)
  else
    (v, v.elems.length)

/-- `Vector::Emplace` (vector.h:120-153), with `idx = pos - cbegin()` and `x`
the value the element construction produces.
* `size_ == Capacity() && size_ > 0`: allocate `size_ * 2`, construct `x` at
  slot `idx`, migrate `[0, idx)` to the front and `[idx, size_)` after it
  (move or copy — same values); the new sequence is `x` inserted at `idx`.
* `size_ > 0` with spare capacity: construct a temporary from `args`,
  move-construct the last element into slot `size_`,
  `std::move_backward` shifts `[idx, size_-1)` right, move-assign the
  temporary into slot `idx` — net effect: `x` inserted at `idx`.
* empty: delegate to `EmplaceBack` and return `begin()` (offset 0). -/
def Emplace (v : Vec α) (idx : Nat) (x : α) : Vec α × Nat :=
  if v.elems.length = v.cap ∧ 0 < v.elems.length then
    (⟨v.elems.take idx ++ [x] ++ v.elems.drop idx, v.elems.length * 2⟩, idx)
  else if 0 < v.elems.length then
    (⟨v.elems.take idx ++ [x] ++ v.elems.drop idx, v.cap⟩, idx)
  else
    (EmplaceBack v x, 0)

/-- `Vector::Insert` (vector.h:172-177): both overloads forward to `Emplace`. -/
def Insert (v : Vec α) (idx : Nat) (x : α) : Vec α × Nat := Emplace v idx x

/-! ### Fallible layer: a copy constructor of `T` that may throw

`cp x = none` models the copy constructor of `T` throwing when invoked on
`x`; `cp x = some y` models a successful copy producing value `y`.  Move
construction never fails on the paths the source selects it for.  The
growth operations return `Except (Vec α) (Vec α)`: `ok` carries the state
after success, `error` carries the state of `*this` that the caller
observes after the exception has propagated.  In `Reserve`, `PushBack` and
`EmplaceBack`, the only writes to the members `data_` / `size_`
(`std::destroy_n` on the old elements, `data_.Swap(new_data)`, `size_ += 1`)
all come after the last construction that can throw, and the partially
filled new arena is local and is torn down during unwinding
(`std::uninitialized_copy_n` destroys its constructed prefix, `~RawMemory`
frees the bytes), so on the throwing paths the members still hold exactly
the entry state. -/

/-- `std::uninitialized_copy_n(src, n, dst)` with a throwing copy
constructor: copies left to right, `none` as soon as one copy throws
(the constructed destination prefix is destroyed during unwinding and does
not appear in any surviving state). -/
def copyAll (cp : α → Option α) : List α → Option (List α)
  | [] => some []
  | x :: xs =>
    match cp x with
    | none => none
    | some y =>
      match copyAll cp xs with
      | none => none
      | some ys => some (y :: ys)

/-- `Vector::Reserve` (vector.h:284-296) with a throwing copy constructor.
`ntmc` = `std::is_nothrow_move_constructible_v<T>`, `cc` =
`std::is_copy_constructible_v<T>`.  The migration moves (never throws) when
`ntmc || !cc`, otherwise it copies each element and may throw. -/
def ReserveE (ntmc cc : Bool) (cp : α → Option α) (v : Vec α) (n : Nat) :
    Except (Vec α) (Vec α) :=
  if n ≤ v.cap then
    Except.ok v
  else if ntmc || !cc then
    Except.ok ⟨v.elems, n⟩
  else
    match copyAll cp v.elems with
    | none => Except.error v
    | some es => Except.ok ⟨es, n⟩

/-- `Vector::PushBack(const T&)` (vector.h:316-332) with a throwing copy
constructor.  On the growth path the new element is copy-constructed into
the new arena first (`new (new_data + size_) T({value})`), then the old
elements are migrated; on the no-growth path the element is
copy-constructed at `data_ + size_`.  Either copy may throw; all member
writes come after them. -/
def PushBackE (ntmc cc : Bool) (cp : α → Option α) (v : Vec α) (x : α) :
    Except (Vec α) (Vec α) :=
  if v.elems.length = v.cap then
    match cp x with
    | none => Except.error v
    | some y =>
      if ntmc || !cc then
        Except.ok ⟨v.elems ++ [y], if v.elems.length = 0 then 1 else v.elems.length * 2⟩
      else
        match copyAll cp v.elems with
        | none => Except.error v
        | some es =>
          Except.ok ⟨es ++ [y], if v.elems.length = 0 then 1 else v.elems.length * 2⟩
  else
    match cp x with
    | none => Except.error v
    | some y => Except.ok ⟨v.elems ++ [y], v.cap⟩

/-! ### Sequences of `PushBack` / `PopBack` operations (spec §8) -/

/-- One step of a push/pop workload. -/
inductive Op (α : Type) where
  | push (x : α)
  | pop
deriving Repr, DecidableEq

/-- Applies a sequence of `PushBack`/`PopBack` calls to a vector, left to
right. -/
def runOps (v : Vec α) : List (Op α) → Vec α
  | [] => v
  | Op.push x :: ops => runOps (PushBack v x) ops
  | Op.pop :: ops => runOps (PopBack v) ops

/-- Modelled from the spec: "elements read back in order match insertion
order minus removed ones" — each push appends its value at the back, each
pop removes the current last value. -/
def specStack (acc : List α) : List (Op α) → List α
  | [] => acc
  | Op.push x :: ops => specStack (acc ++ [x]) ops
  | Op.pop :: ops => specStack acc.dropLast ops

/-- Number of pushes in a workload. -/
def countPush : List (Op α) → Nat
  | [] => 0
  | Op.push _ :: ops => countPush ops + 1
  | Op.pop :: ops => countPush ops

/-- Number of pops in a workload. -/
def countPop : List (Op α) → Nat
  | [] => 0
  | Op.push _ :: ops => countPop ops
  | Op.pop :: ops => countPop ops + 1

/-- `noUnderflow s ops` holds when, starting from size `s`, no pop in `ops`
hits an empty vector. -/
def noUnderflow (s : Nat) : List (Op α) → Bool
  | [] => true
  | Op.push _ :: ops => noUnderflow (s + 1) ops
  | Op.pop :: ops => decide (0 < s) && noUnderflow (s - 1) ops

/-! ### Helper lemmas -/

theorem Reserve_elems (v : Vec α) (n : Nat) : (Reserve v n).elems = v.elems := by
  unfold Reserve; split <;> rfl

theorem Reserve_cap (v : Vec α) (n : Nat) :
    (Reserve v n).cap = if n ≤ v.cap then v.cap else n := by
  unfold Reserve; split <;> rfl

theorem PushBack_elems (v : Vec α) (x : α) : (PushBack v x).elems = v.elems ++ [x] := by
  unfold PushBack; split <;> rfl

theorem PopBack_elems (v : Vec α) : (PopBack v).elems = v.elems.dropLast := by
  unfold PopBack
  split
  · rfl
  · rename_i h
    have hnil : v.elems = [] := by
      cases hv : v.elems with
      | nil => rfl
      | cons a l => rw [hv] at h; simp at h
    rw [hnil]; rfl

theorem PopBack_cap (v : Vec α) : (PopBack v).cap = v.cap := by
  unfold PopBack; split <;> rfl

theorem reverse_take_one (l : List α) (h : l ≠ []) :
    l.reverse.take 1 = [l.getLast h] := by
  induction l using List.reverseRecOn with
  | nil => exact absurd rfl h
  | append_singleton xs x ih => simp

theorem PushBack_cap_le (v : Vec α) (x : α) : v.cap ≤ (PushBack v x).cap := by
  unfold PushBack
  split
  · rename_i hc
    show v.cap ≤ if v.elems.length = 0 then 1 else v.elems.length * 2
    split <;> omega
  · exact Nat.le_refl _

theorem EmplaceBack_cap_le (v : Vec α) (x : α) : v.cap ≤ (EmplaceBack v x).cap := by
  unfold EmplaceBack
  split
  · rename_i hc
    show v.cap ≤ if v.elems.length = 0 then 1 else v.elems.length * 2
    split <;> omega
  · exact Nat.le_refl _

theorem Erase_cap (nta : Bool) (v : Vec α) (idx : Nat) :
    (Erase nta v idx).1.cap = v.cap := by
  unfold Erase; split <;> rfl

/-! ### Claims -/

/-- C1: if element construction fails during the bulk migration performed by
a capacity-growing operation (`Reserve`, or `PushBack` at `size_ == Capacity()`),
the failure propagates to the caller and the vector's prior contents, size
and storage are unchanged afterwards. -/
theorem c1_growth_failure_leaves_vector_unchanged (ntmc cc : Bool)
    (cp : α → Option α) (v w : Vec α) (n : Nat) (x : α)
    (h : ReserveE ntmc cc cp v n = Except.error w ∨
         PushBackE ntmc cc cp v x = Except.error w) :
    w = v := by
  rcases h with h | h
  · unfold ReserveE at h
    split at h
    · simp at h
    · split at h
      · simp at h
      · split at h
        · rw [Except.error.injEq] at h; exact h.symm
        · simp at h
  · unfold PushBackE at h
    split at h
    · split at h
      · rw [Except.error.injEq] at h; exact h.symm
      · split at h
        · simp at h
        · split at h
          · rw [Except.error.injEq] at h; exact h.symm
          · simp at h
    · split at h
      · rw [Except.error.injEq] at h; exact h.symm
      · simp at h

theorem c1_witness :
    ReserveE false true (fun _ : Nat => none) (Vec.mk [5] 1) 2 =
      Except.error (Vec.mk [5] 1) ∧
    PushBackE false true (fun a : Nat => if a = 5 then none else some a)
      (Vec.mk [5] 1) 7 = Except.error (Vec.mk [5] 1) ∧
    (Vec.mk [5] 1 : Vec Nat) = Vec.mk [5] 1 :=
  ⟨rfl, rfl,
    c1_growth_failure_leaves_vector_unchanged false true (fun _ : Nat => none)
      (Vec.mk [5] 1) (Vec.mk [5] 1) 2 7 (Or.inl rfl)⟩

/-- C2: move-assignment between distinct vectors never fails (it is total and
`noexcept`); when the source's size exceeds the destination's capacity the
destination steals the source's elements and capacity and the source is left
empty; when the destination's capacity suffices the operation does nothing:
both vectors keep their contents. -/
theorem c2_move_assign_branches (dst rhs : Vec α) :
    (dst.cap < rhs.elems.length →
      MoveAssign dst rhs = (rhs, (⟨[], 0⟩ : Vec α))) ∧
    (rhs.elems.length ≤ dst.cap → MoveAssign dst rhs = (dst, rhs)) := by
  constructor
  · intro h
    unfold MoveAssign
    rw [if_pos h]
    rfl
  · intro h
    unfold MoveAssign
    rw [if_neg (by omega)]

theorem c2_witness :
    MoveAssign (Vec.mk ([] : List Nat) 0) (Vec.mk [7] 1) =
      (Vec.mk [7] 1, Vec.mk [] 0) ∧
    MoveAssign (Vec.mk [1, 2] 4) (Vec.mk [9] 3) =
      (Vec.mk [1, 2] 4, Vec.mk [9] 3) :=
  ⟨(c2_move_assign_branches (Vec.mk [] 0) (Vec.mk [7] 1)).1 (by decide),
   (c2_move_assign_branches (Vec.mk [1, 2] 4) (Vec.mk [9] 3)).2 (by decide)⟩

/-- C4: when `Size() == Capacity()`, `PushBack` and `EmplaceBack` allocate a
new arena of double the current capacity (1 when growing from empty),
preserve the existing elements in order, append the new element at the end,
and increase the size by exactly one. -/
theorem c4_pushback_growth (v : Vec α) (x y : α) (h : v.elems.length = v.cap) :
    PushBack v x = ⟨v.elems ++ [x], if v.cap = 0 then 1 else v.cap * 2⟩ ∧
    EmplaceBack v y = ⟨v.elems ++ [y], if v.cap = 0 then 1 else v.cap * 2⟩ ∧
    (PushBack v x).elems.take v.elems.length = v.elems ∧
    (PushBack v x).elems.length = v.elems.length + 1 := by
  refine ⟨?_, ?_, ?_, ?_⟩
  · unfold PushBack; rw [if_pos h, h]
  · unfold EmplaceBack; rw [if_pos h, h]
  · rw [PushBack_elems]; exact List.take_left ..
  · rw [PushBack_elems]; simp

theorem c4_witness :
    PushBack (Vec.mk [3] 1) 4 = Vec.mk [3, 4] 2 ∧
    EmplaceBack (Vec.mk [3] 1) 9 = Vec.mk [3, 9] 2 ∧
    (PushBack (Vec.mk [3] 1) 4).elems.take 1 = [3] ∧
    (PushBack (Vec.mk [3] 1) 4).elems.length = 2 :=
  c4_pushback_growth (Vec.mk [3] 1) 4 9 rfl

/-- C6: after `Reserve n` the capacity is at least `n` and the size and
element values are unchanged; when `n <= Capacity()` the call changes
nothing at all, so a second `Reserve` with the same `n` is a no-op. -/
theorem c6_reserve_properties (v : Vec α) (n : Nat) :
    n ≤ (Reserve v n).cap ∧
    (Reserve v n).elems = v.elems ∧
    (n ≤ v.cap → Reserve v n = v) ∧
    Reserve (Reserve v n) n = Reserve v n := by
  refine ⟨?_, Reserve_elems v n, ?_, ?_⟩
  · rw [Reserve_cap]; split <;> omega
  · intro h; unfold Reserve; rw [if_pos h]
  · by_cases h : n ≤ v.cap <;> simp [Reserve, h]

theorem c6_witness :
    3 ≤ (Reserve (Vec.mk ([1] : List Nat) 1) 3).cap ∧
    (Reserve (Vec.mk ([1] : List Nat) 1) 3).elems = [1] ∧
    Reserve (Vec.mk ([1] : List Nat) 2) 2 = Vec.mk [1] 2 ∧
    Reserve (Reserve (Vec.mk ([1] : List Nat) 1) 3) 3 =
      Reserve (Vec.mk [1] 1) 3 :=
  ⟨(c6_reserve_properties (Vec.mk [1] 1) 3).1,
   (c6_reserve_properties (Vec.mk [1] 1) 3).2.1,
   (c6_reserve_properties (Vec.mk [1] 2) 2).2.2.1 (by decide),
   (c6_reserve_properties (Vec.mk [1] 1) 3).2.2.2⟩

/-- C7: move-construction never fails (it is total and `noexcept`); the new
vector has the source's original elements, size and capacity, and the
source is left empty with `Size() == 0`. -/
theorem c7_move_ctor (v : Vec α) :
    (MoveCtor v).1.elems = v.elems ∧
    (MoveCtor v).1.elems.length = v.elems.length ∧
    (MoveCtor v).1.cap = v.cap ∧
    (MoveCtor v).2.elems.length = 0 :=
  ⟨rfl, rfl, rfl, rfl⟩

/-- C3 counterexample: the claim asserts that `Erase` always shifts the
suffix left and removes the element at `pos`, but the source only performs
the shift under `if constexpr (std::is_nothrow_move_assignable_v<T>)`.
For an element type whose move-assignment may throw (`nta = false`),
erasing position 0 of `[10, 20]` keeps `10` (the element the claim says is
removed) and destroys `20` instead of shifting it left. -/
theorem c3_counterexample :
    Erase false (Vec.mk ([10, 20] : List Nat) 2) 0 = (Vec.mk [10] 2, 0) ∧
    ¬ (Erase false (Vec.mk ([10, 20] : List Nat) 2) 0).1.elems = [20] := by
  decide

/-- C3 (amended): for an element type whose move-assignment cannot throw
and `pos` in `[begin, end)`, `Erase` removes the element at `pos`, shifts
the suffix left by one, destroys the vacated trailing slot, leaves the
capacity unchanged, decrements the size by one, never fails (it is total
and `noexcept`), and returns `begin() + pos` — the element now at `pos`,
or `end()` if `pos` was last. -/
theorem c3_erase_nothrow_move_assign (v : Vec α) (idx : Nat)
    (h : idx < v.elems.length) :
    (Erase true v idx).1.elems = v.elems.take idx ++ v.elems.drop (idx + 1) ∧
    (Erase true v idx).1.cap = v.cap ∧
    (Erase true v idx).1.elems.length + 1 = v.elems.length ∧
    (Erase true v idx).2 = idx := by
  have h0 : 0 < v.elems.length := Nat.lt_of_le_of_lt (Nat.zero_le idx) h
  have hne : v.elems ≠ [] := List.ne_nil_of_length_pos h0
  have hbuf :
      (v.elems.take idx ++ v.elems.drop (idx + 1) ++ v.elems.reverse.take 1).dropLast
        = v.elems.take idx ++ v.elems.drop (idx + 1) := by
    rw [reverse_take_one v.elems hne, List.dropLast_concat]
  have hlen : (v.elems.take idx ++ v.elems.drop (idx + 1)).length + 1
      = v.elems.length := by
    simp only [List.length_append, List.length_take, List.length_drop]
    omega
  have hE : Erase true v idx =
      (⟨v.elems.take idx ++ v.elems.drop (idx + 1), v.cap⟩,
        if 0 < (v.elems.take idx ++ v.elems.drop (idx + 1)).length then idx
        else (v.elems.take idx ++ v.elems.drop (idx + 1)).length) := by
    unfold Erase
    rw [if_pos h0]
    simp only [if_true, hbuf]
  rw [hE]
  refine ⟨rfl, rfl, hlen, ?_⟩
  split
  · rfl
  · omega

theorem c3_witness :
    1 < ([4, 5, 6] : List Nat).length ∧
    ((Erase true (Vec.mk ([4, 5, 6] : List Nat) 3) 1).1.elems = [4, 6] ∧
      (Erase true (Vec.mk ([4, 5, 6] : List Nat) 3) 1).1.cap = 3 ∧
      (Erase true (Vec.mk ([4, 5, 6] : List Nat) 3) 1).1.elems.length + 1 = 3 ∧
      (Erase true (Vec.mk ([4, 5, 6] : List Nat) 3) 1).2 = 1) :=
  ⟨by decide, c3_erase_nothrow_move_assign (Vec.mk [4, 5, 6] 3) 1 (by decide)⟩

/-- C5: after copy-assignment between distinct vectors the destination is
elementwise equal to the source with equal size; the capacity shows which
mechanism ran — a copy-and-swap of a full exact-capacity temporary when the
source's size exceeds the destination's capacity (capacity becomes the
source's size), otherwise prefix assignment plus suffix destruction or
suffix copy-construction in place (capacity unchanged). -/
theorem c5_copy_assign (dst rhs : Vec α) :
    (CopyAssign dst rhs).elems = rhs.elems ∧
    (CopyAssign dst rhs).elems.length = rhs.elems.length ∧
    (CopyAssign dst rhs).cap =
      (if rhs.elems.length > dst.cap then rhs.elems.length else dst.cap) := by
  have he : (CopyAssign dst rhs).elems = rhs.elems := by
    unfold CopyAssign CopyCtor
    split
    · rfl
    · split
      · exact List.take_left ..
      · exact List.take_append_drop ..
  refine ⟨he, by rw [he], ?_⟩
  unfold CopyAssign CopyCtor
  split
  · rfl
  · split <;> rfl

/-- Workload simulation, element part: running a push/pop workload always
agrees with the spec's stack model — `PushBack` appends unconditionally and
`PopBack` is `dropLast` on the live prefix whether or not the vector is
empty. -/
theorem runOps_elems (ops : List (Op α)) (v : Vec α) :
    (runOps v ops).elems = specStack v.elems ops := by
  induction ops generalizing v with
  | nil => rfl
  | cons op ops ih =>
    cases op with
    | push x =>
      show (runOps (PushBack v x) ops).elems = specStack (v.elems ++ [x]) ops
      rw [ih (PushBack v x), PushBack_elems]
    | pop =>
      show (runOps (PopBack v) ops).elems = specStack v.elems.dropLast ops
      rw [ih (PopBack v), PopBack_elems]

/-- Workload simulation: running a push/pop workload agrees with the
spec's stack model, and, when no pop hits an empty vector, the final size
plus the number of pops equals the starting size plus the number of
pushes. -/
theorem runOps_spec (ops : List (Op α)) (v : Vec α)
    (h : noUnderflow v.elems.length ops = true) :
    (runOps v ops).elems = specStack v.elems ops ∧
    (runOps v ops).elems.length + countPop ops
      = v.elems.length + countPush ops := by
  induction ops generalizing v with
  | nil => exact ⟨rfl, rfl⟩
  | cons op ops ih =>
    cases op with
    | push x =>
      have hlen : (PushBack v x).elems.length = v.elems.length + 1 := by
        rw [PushBack_elems]; simp
      have h' : noUnderflow (PushBack v x).elems.length ops = true := by
        rw [hlen]
        simpa [noUnderflow] using h
      obtain ⟨ih1, ih2⟩ := ih (PushBack v x) h'
      refine ⟨?_, ?_⟩
      · show (runOps (PushBack v x) ops).elems = specStack (v.elems ++ [x]) ops
        rw [ih1, PushBack_elems]
      · show (runOps (PushBack v x) ops).elems.length + countPop ops
          = v.elems.length + (countPush ops + 1)
        omega
    | pop =>
      have hfacts : 0 < v.elems.length ∧
          noUnderflow (v.elems.length - 1) ops = true := by
        simpa [noUnderflow] using h
      have hlen : (PopBack v).elems.length = v.elems.length - 1 := by
        rw [PopBack_elems]; simp
      have h' : noUnderflow (PopBack v).elems.length ops = true := by
        rw [hlen]; exact hfacts.2
      obtain ⟨ih1, ih2⟩ := ih (PopBack v) h'
      refine ⟨?_, ?_⟩
      · show (runOps (PopBack v) ops).elems = specStack v.elems.dropLast ops
        rw [ih1, PopBack_elems]
      · show (runOps (PopBack v) ops).elems.length + (countPop ops + 1)
          = v.elems.length + countPush ops
        have h1 := hfacts.1
        omega

/-- C8 counterexample: the claim says the final size equals the number of
pushes minus the number of pops for every workload, but `PopBack` on an
empty vector is a no-op, so the workload `[pop, push 5]` from an empty
vector ends with size 1 while pushes minus pops is 0. -/
theorem c8_counterexample :
    (runOps (MkEmpty : Vec Nat) [Op.pop, Op.push 5]).elems.length = 1 ∧
    countPush ([Op.pop, Op.push 5] : List (Op Nat))
      - countPop ([Op.pop, Op.push 5] : List (Op Nat)) = 0 := by
  decide

/-- C8 (amended): for every push/pop workload applied to an initially empty
vector, the elements read back in index order are exactly the pushed values
in insertion order minus the removed ones (the spec's stack model); and,
provided no `PopBack` in the workload is applied while the vector is empty,
the final size plus the number of pops equals the number of pushes, i.e.
`Size()` equals pushes minus pops. -/
theorem c8_push_pop_workloads (ops : List (Op α)) :
    (runOps (MkEmpty : Vec α) ops).elems = specStack [] ops ∧
    (noUnderflow 0 ops = true →
      (runOps (MkEmpty : Vec α) ops).elems.length + countPop ops
        = countPush ops) := by
  constructor
  · simpa [MkEmpty] using runOps_elems ops MkEmpty
  · intro h
    simpa [MkEmpty] using (runOps_spec ops MkEmpty h).2

theorem c8_witness :
    ((runOps (MkEmpty : Vec Nat) [Op.pop, Op.push 1, Op.push 2, Op.pop]).elems
        = specStack [] [Op.pop, Op.push 1, Op.push 2, Op.pop]) ∧
    ((runOps (MkEmpty : Vec Nat) [Op.push 1, Op.push 2, Op.pop]).elems.length
        + countPop [Op.push (1 : Nat), Op.push 2, Op.pop]
      = countPush [Op.push (1 : Nat), Op.push 2, Op.pop]) :=
  ⟨(c8_push_pop_workloads [Op.pop, Op.push 1, Op.push 2, Op.pop]).1,
   (c8_push_pop_workloads [Op.push 1, Op.push 2, Op.pop]).2 (by decide)⟩

/-- C9 counterexample: the claim says capacity never decreases under every
public operation, including being the source of a move-construction; but
move-construction steals the source's arena, leaving the source with a
null buffer of capacity 0, so a source of capacity 1 decreases to 0. -/
theorem c9_counterexample :
    (MoveCtor (Vec.mk ([5] : List Nat) 1)).2.cap
      < (Vec.mk ([5] : List Nat) 1).cap := by
  decide

/-- C9 (amended): the capacity of the vector an operation is applied to
never decreases — `PushBack`, `EmplaceBack`, `PopBack`, `Reserve`,
`Resize`, `Erase`, `Emplace`, copy-assignment, move-assignment (the
destination, given the source's invariant `size <= capacity`) and the
target of a move-construction all end with capacity at least the prior
capacity — but a vector that is the source of a move-construction or
move-assignment, or a `Swap` partner with a larger-capacity peer, can lose
capacity, since its storage is transferred away. -/
theorem c9_receiver_capacity_monotone (v rhs : Vec α) (x d : α)
    (n idx : Nat) (nta : Bool) (hinv : rhs.elems.length ≤ rhs.cap) :
    v.cap ≤ (PushBack v x).cap ∧
    v.cap ≤ (EmplaceBack v x).cap ∧
    v.cap ≤ (PopBack v).cap ∧
    v.cap ≤ (Reserve v n).cap ∧
    v.cap ≤ (Resize d v n).cap ∧
    v.cap ≤ (Erase nta v idx).1.cap ∧
    v.cap ≤ (Emplace v idx x).1.cap ∧
    v.cap ≤ (CopyAssign v rhs).cap ∧
    v.cap ≤ (MoveAssign v rhs).1.cap ∧
    v.cap ≤ (MoveCtor v).1.cap := by
  refine ⟨PushBack_cap_le v x, EmplaceBack_cap_le v x, ?_, ?_, ?_, ?_, ?_, ?_, ?_,
    Nat.le_refl _⟩
  · rw [PopBack_cap]
  · rw [Reserve_cap]; split <;> omega
  · unfold Resize
    split
    · exact Nat.le_refl _
    · split
      · show v.cap ≤ (Reserve v n).cap
        rw [Reserve_cap]; split <;> omega
      · exact Nat.le_refl _
  · rw [Erase_cap]
  · unfold Emplace
    split
    · rename_i hc
      show v.cap ≤ v.elems.length * 2
      omega
    · split
      · exact Nat.le_refl _
      · show v.cap ≤ (EmplaceBack v x).cap
        exact EmplaceBack_cap_le v x
  · unfold CopyAssign CopyCtor
    split
    · rename_i hgt
      show v.cap ≤ rhs.elems.length
      omega
    · split <;> exact Nat.le_refl _
  · unfold MoveAssign MoveCtor
    split
    · rename_i hgt
      show v.cap ≤ rhs.cap
      omega
    · exact Nat.le_refl _

theorem c9_witness :
    (Vec.mk ([2, 3] : List Nat) 2).elems.length
      ≤ (Vec.mk ([2, 3] : List Nat) 2).cap ∧
    ((Vec.mk ([1] : List Nat) 2).cap
        ≤ (PushBack (Vec.mk ([1] : List Nat) 2) 0).cap ∧
      (Vec.mk ([1] : List Nat) 2).cap
        ≤ (EmplaceBack (Vec.mk ([1] : List Nat) 2) 0).cap ∧
      (Vec.mk ([1] : List Nat) 2).cap
        ≤ (PopBack (Vec.mk ([1] : List Nat) 2)).cap ∧
      (Vec.mk ([1] : List Nat) 2).cap
        ≤ (Reserve (Vec.mk ([1] : List Nat) 2) 5).cap ∧
      (Vec.mk ([1] : List Nat) 2).cap
        ≤ (Resize 0 (Vec.mk ([1] : List Nat) 2) 5).cap ∧
      (Vec.mk ([1] : List Nat) 2).cap
        ≤ (Erase true (Vec.mk ([1] : List Nat) 2) 0).1.cap ∧
      (Vec.mk ([1] : List Nat) 2).cap
        ≤ (Emplace (Vec.mk ([1] : List Nat) 2) 0 0).1.cap ∧
      (Vec.mk ([1] : List Nat) 2).cap
        ≤ (CopyAssign (Vec.mk ([1] : List Nat) 2) (Vec.mk [2, 3] 2)).cap ∧
      (Vec.mk ([1] : List Nat) 2).cap
        ≤ (MoveAssign (Vec.mk ([1] : List Nat) 2) (Vec.mk [2, 3] 2)).1.cap ∧
      (Vec.mk ([1] : List Nat) 2).cap
        ≤ (MoveCtor (Vec.mk ([1] : List Nat) 2)).1.cap) :=
  ⟨by decide,
    c9_receiver_capacity_monotone (Vec.mk [1] 2) (Vec.mk [2, 3] 2) 0 0 5 0 true
      (by decide)⟩

/-- C10: on an empty vector `Erase` is a defined no-op for any position
argument: it destroys nothing, leaves size and storage unchanged, and
returns `end()` (offset 0 from `begin()`). -/
theorem c10_erase_empty {β : Type} (nta : Bool) (cap idx : Nat) :
    Erase nta (Vec.mk ([] : List β) cap) idx = (Vec.mk [] cap, 0) := rfl

end AdvVec
